import Mathlib

/-!
Verification of the deploy tool (`src/deploy_tool.py`) against its
natural-language specification.

The development shallow-embeds the control flow of `DeployTool`:
`connect_ssh`, `disconnect_ssh`, `verify_remote_checksum`,
`delete_remote_folder`, `decompress_remote`, `compress_directory` and
`deploy`.  External effects (the PySocks import, socket connects, the SSH
handshake, remote command exit statuses, the file system) are supplied as
oracle fields of environment structures; each embedded function returns its
Python result together with the trace of externally visible events it
performs, in order.
-/

namespace DeployToolModel

/-- The kind of raw socket placed into `connect_kwargs['sock']` by the proxy
negotiation code: a SOCKS5-tunneled socket or an HTTP CONNECT tunnel.
`none` (no `sock` key) means a direct connection. -/
inductive SockKind where
  | socks5
  | httpTunnel
  deriving DecidableEq, Repr

/-- Externally visible events of one `DeployTool` run, in program order. -/
inductive Event where
  | socksAttempt
  | httpAttempt
  | sshAttempt (sock : Option SockKind) (attempt : Nat)
  | sleepEv (seconds : Nat)
  | startDeploy (localPath remotePath : String)
  | deleteCheck (path : String)
  | deleteRm (path : String)
  | mkdirCmd (path : String)
  | compressEv (src : String)
  | uploadEv
  | verifyEv
  | decompressCmd (path : String)
  | cleanupRm (path : String)
  | scpPutDir (src dst : String)
  | scpPutFile (src dst : String)
  | disconnectEv
  deriving DecidableEq, Repr

/-- `ssh.proxy` configuration block (`ssh_config.get('proxy', {})`).
A missing block is represented by `hostname = none`. -/
structure ProxyConfig where
  hostname : Option String
  port : Nat
  type : Option String
  username : Option String
  password : Option String

/-- `ssh` configuration block. -/
structure SSHConfig where
  hostname : String
  port : Nat
  username : String
  key_file : Option String
  password : Option String
  proxy : ProxyConfig

/-- `deploy` configuration block. -/
structure DeployConfig where
  compression : Bool
  compression_format : String
  retry_attempts : Nat
  retry_delay : Nat
  delete_before_sync : Bool
  checksum_verify : Bool
  chunk_size : Nat

/-- `paths` configuration block (`paths.local` / `paths.remote`; renamed
because `local` is a Lean keyword). -/
structure PathsConfig where
  localPath : Option String
  remotePath : Option String

/-- The loaded YAML configuration (the parts `deploy`/`connect_ssh` read). -/
structure Config where
  ssh : SSHConfig
  deploy : DeployConfig
  paths : PathsConfig

/-- Oracles for the external effects of `connect_ssh`:
whether `import socks` succeeds, whether the SOCKS socket connect succeeds,
whether an exception occurs during the HTTP CONNECT socket operations, the
HTTP response text received from the proxy, and the outcome of each
`ssh_client.connect` handshake (depending on the socket used and the
attempt index). -/
structure ConnectEnv where
  socksImportOk : Bool
  socksConnectOk : Bool
  httpExc : Bool
  httpResponse : String
  sshConnect : Option SockKind → Nat → Bool

/-- Substring test (Python's `in` operator on `str`). -/
def containsStr (hay needle : String) : Bool :=
  go hay.toList
where
  go : List Char → Bool
    | [] => needle.toList.isPrefixOf []
    | c :: rest => needle.toList.isPrefixOf (c :: rest) || go rest

/-- Line 206: `"200" in response and ("OK" in response or
"Connection established" in response)`. -/
def httpRespOk (resp : String) : Bool :=
  containsStr resp "200" && (containsStr resp "OK" || containsStr resp "Connection established")

/-- The SOCKS5 branch (lines 147-174): returns the `sock` value established
(if any), whether an exception escaped the branch, and the trace.
On `ImportError` or a socket failure the branch re-raises in every mode
(in `auto` mode it raises the `"SOCKS5 not available"` /
`"SOCKS5 failed, trying HTTP"` exceptions). -/
def socksPhase (env : ConnectEnv) : Option SockKind × Bool × List Event :=
  if env.socksImportOk then
    if env.socksConnectOk then (some .socks5, false, [.socksAttempt])
    else (none, true, [.socksAttempt])
  else (none, true, [.socksAttempt])

/-- The HTTP CONNECT branch (lines 176-211), entered with the current
`connect_kwargs['sock']` value; on failure the previous sock value is kept
(the code only overwrites `connect_kwargs['sock']` on success). -/
def httpPhase (env : ConnectEnv) (sock : Option SockKind) : Option SockKind × Bool × List Event :=
  if env.httpExc then (sock, true, [.httpAttempt])
  else if httpRespOk env.httpResponse then (some .httpTunnel, false, [.httpAttempt])
  else (sock, true, [.httpAttempt])

/-- The proxy-negotiation `try` block (lines 144-211).  A raise inside the
SOCKS5 branch propagates out of this block immediately, so the HTTP branch
at line 176 is skipped whenever the SOCKS5 branch raised; conversely, in
`auto` mode a successful SOCKS5 negotiation still falls through into the
HTTP branch, because the two `if` tests are not chained with `elif`. -/
def proxyNegotiation (ptype : String) (env : ConnectEnv) :
    Option SockKind × Bool × List Event :=
  if ptype = "socks5" ∨ ptype = "auto" then
    let s := socksPhase env
    if s.2.1 then s
    else if ptype = "auto" then
      let h := httpPhase env s.1
      (h.1, h.2.1, s.2.2 ++ h.2.2)
    else s
  else if ptype = "http" then
    httpPhase env none
  else (none, false, [])

/-- The retry loop body (lines 226-242): `for attempt in range(max_retries)`,
sleeping `retry_delay` between consecutive failed attempts.  When
`max_retries = 0` the loop body never runs and the Python function falls off
the end returning `None`, which every caller treats as falsy; that path is
modelled as `false`. -/
def retryAux (env : ConnectEnv) (sock : Option SockKind) (delay : Nat) :
    Nat → Nat → Bool × List Event
  | _, 0 => (false, [])
  | attempt, remaining + 1 =>
    if env.sshConnect sock attempt then (true, [.sshAttempt sock attempt])
    else
      match remaining with
      | 0 => (false, [.sshAttempt sock attempt])
      | r + 1 =>
        let t := retryAux env sock delay (attempt + 1) (r + 1)
        (t.1, .sshAttempt sock attempt :: .sleepEv delay :: t.2)

/-- The bounded connection retry loop of `connect_ssh`: attempt indices run
from `0` with `maxR` attempts remaining (`attempt < max_retries - 1` at
attempt index `i` is `remaining ≥ 2` at that state). -/
def retryLoop (env : ConnectEnv) (sock : Option SockKind) (maxR delay : Nat) :
    Bool × List Event :=
  retryAux env sock delay 0 maxR

/-- ASCII lower-casing of one character (`str.lower` on the ASCII proxy-type
strings the configuration uses). -/
def lowerChar (c : Char) : Char :=
  if 'A' ≤ c ∧ c ≤ 'Z' then Char.ofNat (c.toNat + 32) else c

/-- Python `str.lower()` on ASCII strings. -/
def pyLower (s : String) : String := ⟨s.data.map lowerChar⟩

/-- Effective proxy type string: `proxy_config.get('type', 'auto').lower()`. -/
def proxyType (cfg : Config) : String :=
  pyLower (cfg.ssh.proxy.type.getD "auto")

/-- `DeployTool.connect_ssh` (lines 110-246).  Authentication parameter
selection (lines 126-136) only fills `connect_kwargs` fields that do not
influence the modelled control flow and is omitted.  An exception re-raised
by the proxy handler in a non-`auto` mode is caught by the outer handler at
line 244 and yields `False`. -/
def connect_ssh (cfg : Config) (env : ConnectEnv) : Bool × List Event :=
  match cfg.ssh.proxy.hostname with
  | none => retryLoop env none cfg.deploy.retry_attempts cfg.deploy.retry_delay
  | some _ =>
    let p := proxyNegotiation (proxyType cfg) env
    if p.2.1 ∧ proxyType cfg ≠ "auto" then (false, p.2.2)
    else
      let r := retryLoop env p.1 cfg.deploy.retry_attempts cfg.deploy.retry_delay
      (r.1, p.2.2 ++ r.2)

/-- Result of one remote command execution: the exit status delivered by
`recv_exit_status` and the decoded `stdout`/`stderr` texts. -/
structure RemoteResult where
  exitStatus : Nat
  stdout : String
  stderr : String
  deriving DecidableEq, Repr

/-- Oracles for `verify_remote_checksum`: the outcome of
`calculate_checksum(local_file)` (SHA256 hex digest, or an exception while
reading/hashing the file) and the outcome of running `sha256sum` remotely
(`Except.error` models `exec_command`/`recv_exit_status` raising). -/
structure VerifyEnv where
  localHash : Except Unit String
  remoteExec : Except Unit RemoteResult

/-- First whitespace-delimited token of a string:
`output.strip().split()[0]`, with `none` for the `IndexError` raised when the
output contains no token. -/
def firstToken (s : String) : Option String :=
  match s.data.dropWhile Char.isWhitespace with
  | [] => none
  | c :: rest => some ⟨(c :: rest).takeWhile (fun d => !d.isWhitespace)⟩

/-- `DeployTool.verify_remote_checksum` (lines 331-358).  The surrounding
`try` catches every exception — from the local hashing, from the remote
execution, and the `IndexError` from `split()[0]` — and returns `True`. -/
def verify_remote_checksum (env : VerifyEnv) : Bool :=
  match env.localHash with
  | .error _ => true
  | .ok localChecksum =>
    match env.remoteExec with
    | .error _ => true
    | .ok r =>
      if r.exitStatus = 0 then
        match firstToken r.stdout with
        | none => true
        | some remoteChecksum => localChecksum = remoteChecksum
      else true

/-- Oracles for `delete_remote_folder`: exit status of `test -d <path>` and
of `rm -rf <path>` (`Except.error` models the command execution raising). -/
structure DeleteEnv where
  testExec : Except Unit Nat
  rmExec : Except Unit Nat

/-- `DeployTool.delete_remote_folder` (lines 360-388): `test -d` first; exit
status `0` (folder exists) triggers `rm -rf`, whose zero/non-zero exit status
decides the result; a non-zero `test` status is the no-op success path; any
exception yields `False`. -/
def delete_remote_folder (p : String) (env : DeleteEnv) : Bool × List Event :=
  match env.testExec with
  | .error _ => (false, [.deleteCheck p])
  | .ok st =>
    if st = 0 then
      match env.rmExec with
      | .error _ => (false, [.deleteCheck p, .deleteRm p])
      | .ok st2 => (if st2 = 0 then true else false, [.deleteCheck p, .deleteRm p])
    else (true, [.deleteCheck p])

/-- `DeployTool.decompress_remote` (lines 301-329), with the exit status of
the `tar -xzf`/`unzip -o` command as oracle.  An unsupported format raises
`ValueError`, caught by the function's own handler (`False`); success runs
the best-effort `rm` of the uploaded archive. -/
def decompress_remote (fmt rp : String) (ex : Except Unit Nat) : Bool × List Event :=
  if fmt = "tar.gz" ∨ fmt = "zip" then
    match ex with
    | .error _ => (false, [.decompressCmd rp])
    | .ok st =>
      if st = 0 then (true, [.decompressCmd rp, .cleanupRm rp])
      else (false, [.decompressCmd rp])
  else (false, [])

/-- Python string truthiness for optional path values: `None` and `""` are
falsy. -/
def pyStr : Option String → Option String
  | none => none
  | some s => if s = "" then none else some s

/-- Lines 394-398: the CLI argument wins; a falsy argument falls back to
`config['paths']['local']`. -/
def resolveLocal (arg : Option String) (cfg : Config) : Option String :=
  match pyStr arg with
  | some s => some s
  | none => pyStr cfg.paths.localPath

/-- Lines 400-404: same resolution for the remote path. -/
def resolveRemote (arg : Option String) (cfg : Config) : Option String :=
  match pyStr arg with
  | some s => some s
  | none => pyStr cfg.paths.remotePath

/-- Lines 421-423: `force_delete` unless it `is None`, else the configured
`delete_before_sync` (defaulting to `False`). -/
def effDelete (fd : Option Bool) (cfg : Config) : Bool :=
  fd.getD cfg.deploy.delete_before_sync

/-- Oracles for one `deploy` run: `os.path.expanduser`, `os.path.exists`,
`os.path.isdir`, the connect/delete/verify oracles, whether the `mkdir -p`
`exec_command` raises, whether compression raises an unexpected OS error,
whether the upload (either SCP strategy, or the direct-mode put) raises, and
the exit status of the remote decompression command. -/
structure DeployEnv where
  expanduser : String → String
  pathExists : String → Bool
  isDir : String → Bool
  cenv : ConnectEnv
  delEnv : DeleteEnv
  mkdirRaises : Bool
  compressExc : Bool
  uploadExc : Bool
  venv : VerifyEnv
  dcExec : Except Unit Nat

/-- The single SCP put of direct-transfer mode (lines 517-520): recursive for
a directory, plain otherwise. -/
def directEv (env : DeployEnv) (lp rp : String) : Event :=
  if env.isDir lp then .scpPutDir lp rp else .scpPutFile lp rp

/-- The body of the inner `try` of `deploy` (lines 438-529): compression
branch (compress → upload → optional checksum gate → decompress) or direct
transfer.  Every exception inside this body is caught by the inner handler
(line 531) and becomes `False`. -/
def deployBody (cfg : Config) (env : DeployEnv) (lp rp : String) : Bool × List Event :=
  if cfg.deploy.compression then
    if cfg.deploy.compression_format = "tar.gz" ∨ cfg.deploy.compression_format = "zip" then
      if env.compressExc then (false, [.compressEv lp])
      else if env.uploadExc then (false, [.compressEv lp, .uploadEv])
      else if cfg.deploy.checksum_verify then
        if verify_remote_checksum env.venv then
          ((decompress_remote cfg.deploy.compression_format rp env.dcExec).1,
           .compressEv lp :: .uploadEv :: .verifyEv ::
             (decompress_remote cfg.deploy.compression_format rp env.dcExec).2)
        else (false, [.compressEv lp, .uploadEv, .verifyEv])
      else
        ((decompress_remote cfg.deploy.compression_format rp env.dcExec).1,
         .compressEv lp :: .uploadEv ::
           (decompress_remote cfg.deploy.compression_format rp env.dcExec).2)
    else (false, [.compressEv lp])
  else
    if env.uploadExc then (false, [directEv env lp rp])
    else (true, [directEv env lp rp])

/-- Lines 431-433 then 438-536: the `mkdir -p` command (an exception here
propagates to the outer handler at line 538, *bypassing* the inner
`finally`), then the inner `try/except/finally` whose `finally` always runs
`disconnect_ssh`. -/
def deployMkdirPhase (cfg : Config) (env : DeployEnv) (lp rp : String)
    (tr : List Event) : Bool × List Event :=
  if env.mkdirRaises then (false, tr ++ [.mkdirCmd rp])
  else
    ((deployBody cfg env lp rp).1,
     tr ++ .mkdirCmd rp :: (deployBody cfg env lp rp).2 ++ [.disconnectEv])

/-- Lines 420-433: the delete-before-sync phase.  A failed deletion returns
`False` at line 429, *before* the inner `try/finally` is entered, so no
`disconnect_ssh` runs on that path. -/
def deployPostConnect (cfg : Config) (env : DeployEnv) (lp rp : String)
    (fd : Option Bool) (tr : List Event) : Bool × List Event :=
  if effDelete fd cfg then
    if (delete_remote_folder rp env.delEnv).1 then
      deployMkdirPhase cfg env lp rp (tr ++ (delete_remote_folder rp env.delEnv).2)
    else (false, tr ++ (delete_remote_folder rp env.delEnv).2)
  else deployMkdirPhase cfg env lp rp tr

/-- `DeployTool.deploy` (lines 390-540): path resolution, home expansion,
local existence check, connect, then the post-connect pipeline. -/
def deploy (cfg : Config) (env : DeployEnv) (lpArg rpArg : Option String)
    (fd : Option Bool) : Bool × List Event :=
  match resolveLocal lpArg cfg with
  | none => (false, [])
  | some a =>
    match resolveRemote rpArg cfg with
    | none => (false, [])
    | some b =>
      let lp := env.expanduser a
      if env.pathExists lp then
        if (connect_ssh cfg env.cenv).1 then
          deployPostConnect cfg env lp b fd
            (.startDeploy lp b :: (connect_ssh cfg env.cenv).2)
        else (false, .startDeploy lp b :: (connect_ssh cfg env.cenv).2)
      else (false, [.startDeploy lp b])

/-- A local file-system tree: the named immediate children of a directory are
given as a list (in `os.listdir` order). -/
inductive FSTree where
  | file (name : String)
  | dir (name : String) (children : List FSTree)

/-- Base name of a tree node. -/
def rootName : FSTree → String
  | .file n => n
  | .dir n _ => n

/-- Archive paths are modelled as lists of path segments
(`["sub", "file.txt"]` stands for `sub/file.txt`). -/
abbrev Seg := List String

mutual

/-- Members produced by `tar.add(item_path, arcname=item)` for one entry:
`tarfile` adds the entry under `pfx ++ [its name]` and, for a directory,
recursively adds everything below it under that member name. -/
def tarAdd (pfx : Seg) : FSTree → List Seg
  | .file n => [pfx ++ [n]]
  | .dir n cs => (pfx ++ [n]) :: tarAddF (pfx ++ [n]) cs

/-- `tarAdd` over a list of sibling entries. -/
def tarAddF (pfx : Seg) : List FSTree → List Seg
  | [] => []
  | t :: ts => tarAdd pfx t ++ tarAddF pfx ts

end

/-- Member list of the `tar.gz` branch of `compress_directory`
(lines 278-282): one `tar.add(item_path, arcname=item)` per immediate child
of the source directory — the source directory's own name never appears. -/
def compressTarMembers (children : List FSTree) : List Seg :=
  tarAddF [] children

mutual

/-- All file paths below one entry, relative to the directory `pfx` segments
above it. -/
def relFiles (pfx : Seg) : FSTree → List Seg
  | .file n => [pfx ++ [n]]
  | .dir n cs => relFilesF (pfx ++ [n]) cs

/-- `relFiles` over a list of sibling entries. -/
def relFilesF (pfx : Seg) : List FSTree → List Seg
  | [] => []
  | t :: ts => relFiles pfx t ++ relFilesF pfx ts

end

/-- File names among a directory's immediate children. -/
def levelFiles (root : Seg) (cs : List FSTree) : List (Seg × String) :=
  cs.filterMap fun c =>
    match c with
    | .file n => some (root, n)
    | .dir _ _ => none

mutual

/-- The contribution of one entry to the descent of `os.walk`: a file at this
level was already listed by its parent; a directory contributes its own files
first, then its subtrees. -/
def walkT (root : Seg) : FSTree → List (Seg × String)
  | .file _ => []
  | .dir n cs => levelFiles (root ++ [n]) cs ++ walkSubs (root ++ [n]) cs

/-- The recursive descent of `os.walk` into a list of sibling entries. -/
def walkSubs (root : Seg) : List FSTree → List (Seg × String)
  | [] => []
  | t :: ts => walkT root t ++ walkSubs root ts

end

/-- `os.walk(source_path)` restricted to what the zip branch consumes: the
walked `(root, file)` pairs in top-down order — the files of a directory
first, then each subdirectory's subtree, in `os.listdir` order. -/
def walkD (root : Seg) (cs : List FSTree) : List (Seg × String) :=
  levelFiles root cs ++ walkSubs root cs

/-- `os.path.relpath(p, base)` for the walk-produced paths, all of which
extend `base`. -/
def relpath (p base : Seg) : Seg := p.drop base.length

/-- Member list of the `zip` branch of `compress_directory` (lines 288-294):
walk the tree, and for each file store it under
`os.path.relpath(file_path, source_path)`. -/
def zipMembers (src : Seg) (children : List FSTree) : List Seg :=
  (walkD src children).map fun rc => relpath (rc.1 ++ [rc.2]) src

/-- `DeployTool.compress_directory` (lines 269-299), reduced to the archive
member names it produces: `tar.gz` and `zip` as above, any other format
raises `ValueError` (modelled as `Except.error`). -/
def compress_directory_members (fmt : String) (src : Seg) (children : List FSTree) :
    Except Unit (List Seg) :=
  if fmt = "tar.gz" then .ok (compressTarMembers children)
  else if fmt = "zip" then .ok (zipMembers src children)
  else .error ()

/-! ## Event classifiers and connection-phase helpers -/

/-- Is this an SSH handshake attempt? -/
def isSshEv : Event → Bool
  | .sshAttempt _ _ => true
  | _ => false

/-- Is this a retry pause? -/
def isSleepEv : Event → Bool
  | .sleepEv _ => true
  | _ => false

/-- Is this a proxy-negotiation event? -/
def isProxyEv : Event → Bool
  | .socksAttempt => true
  | .httpAttempt => true
  | _ => false

/-- Does this event write to the target remote path? -/
def isRemoteWrite : Event → Bool
  | .mkdirCmd _ => true
  | .uploadEv => true
  | .decompressCmd _ => true
  | .cleanupRm _ => true
  | .scpPutDir _ _ => true
  | .scpPutFile _ _ => true
  | _ => false

/-- The trace of a retry loop whose every handshake fails: one attempt, then
a pause, alternating, with no pause after the last attempt. -/
def failTrace (sock : Option SockKind) (delay : Nat) : Nat → Nat → List Event
  | _, 0 => []
  | attempt, remaining + 1 =>
    match remaining with
    | 0 => [.sshAttempt sock attempt]
    | r + 1 => .sshAttempt sock attempt :: .sleepEv delay :: failTrace sock delay (attempt + 1) (r + 1)

/-- The `sock` value the retry loop uses (the outcome of proxy negotiation). -/
def proxySock (cfg : Config) (env : ConnectEnv) : Option SockKind :=
  match cfg.ssh.proxy.hostname with
  | none => none
  | some _ => (proxyNegotiation (proxyType cfg) env).1

/-- The proxy-negotiation part of a `connect_ssh` trace. -/
def proxyTr (cfg : Config) (env : ConnectEnv) : List Event :=
  match cfg.ssh.proxy.hostname with
  | none => []
  | some _ => (proxyNegotiation (proxyType cfg) env).2.2

/-- `true` when proxy negotiation raised in a non-`auto` mode, in which case
`connect_ssh` returns `False` without reaching the retry loop. -/
def proxyFatal (cfg : Config) (env : ConnectEnv) : Bool :=
  match cfg.ssh.proxy.hostname with
  | none => false
  | some _ => (proxyNegotiation (proxyType cfg) env).2.1 && decide (proxyType cfg ≠ "auto")

lemma connect_ssh_decomp (cfg : Config) (env : ConnectEnv)
    (h : proxyFatal cfg env = false) :
    connect_ssh cfg env =
      ((retryLoop env (proxySock cfg env) cfg.deploy.retry_attempts cfg.deploy.retry_delay).1,
       proxyTr cfg env
         ++ (retryLoop env (proxySock cfg env) cfg.deploy.retry_attempts cfg.deploy.retry_delay).2) := by
  unfold connect_ssh proxySock proxyTr
  unfold proxyFatal at h
  cases hh : cfg.ssh.proxy.hostname with
  | none => simp
  | some x =>
    rw [hh] at h
    simp only [Bool.and_eq_false_iff, decide_eq_false_iff_not, not_not] at h
    rcases h with h | h
    · simp [h]
    · simp [h]

lemma connect_ssh_fatal (cfg : Config) (env : ConnectEnv)
    (h : proxyFatal cfg env = true) :
    connect_ssh cfg env = (false, proxyTr cfg env) := by
  unfold connect_ssh proxyTr
  unfold proxyFatal at h
  cases hh : cfg.ssh.proxy.hostname with
  | none => rw [hh] at h; simp at h
  | some x =>
    rw [hh] at h
    simp only [Bool.and_eq_true, decide_eq_true_eq] at h
    simp [h.1, h.2]

lemma retryAux_fail (env : ConnectEnv) (sock : Option SockKind) (delay : Nat)
    (h : ∀ i, env.sshConnect sock i = false) :
    ∀ rem att, retryAux env sock delay att rem = (false, failTrace sock delay att rem) := by
  intro rem
  induction rem with
  | zero => intro att; rfl
  | succ r ih =>
    intro att
    cases r with
    | zero => simp [retryAux, failTrace, h]
    | succ r' => simp [retryAux, failTrace, h, ih]

lemma failTrace_count_ssh (sock : Option SockKind) (delay : Nat) :
    ∀ rem att, (failTrace sock delay att rem).countP isSshEv = rem := by
  intro rem
  induction rem with
  | zero => intro att; rfl
  | succ r ih =>
    intro att
    cases r with
    | zero => simp [failTrace, isSshEv]
    | succ r' => simp [failTrace, List.countP_cons, isSshEv, isSleepEv, ih]

lemma failTrace_count_sleep (sock : Option SockKind) (delay : Nat) :
    ∀ rem att, (failTrace sock delay att rem).countP isSleepEv = rem - 1 := by
  intro rem
  induction rem with
  | zero => intro att; rfl
  | succ r ih =>
    intro att
    cases r with
    | zero => simp [failTrace, isSleepEv]
    | succ r' =>
      have h1 : (failTrace sock delay (att + 1) (r' + 1)).countP isSleepEv = r' + 1 - 1 :=
        ih (att + 1)
      simp [failTrace, List.countP_cons, isSleepEv, isSshEv, h1]

lemma retryAux_events (env : ConnectEnv) (sock : Option SockKind) (delay : Nat) :
    ∀ rem att e, e ∈ (retryAux env sock delay att rem).2 → isProxyEv e = false := by
  intro rem
  induction rem with
  | zero => intro att e he; simp [retryAux] at he
  | succ r ih =>
    intro att e he
    cases r with
    | zero =>
      cases hcon : env.sshConnect sock att with
      | true => simp [retryAux, hcon] at he; subst he; rfl
      | false => simp [retryAux, hcon] at he; subst he; rfl
    | succ r' =>
      cases hcon : env.sshConnect sock att with
      | true => simp [retryAux, hcon] at he; subst he; rfl
      | false =>
        simp [retryAux, hcon] at he
        rcases he with he | he | he
        · subst he; rfl
        · subst he; rfl
        · exact ih (att + 1) e he

lemma proxyNeg_tr_shape (ptype : String) (env : ConnectEnv) :
    (proxyNegotiation ptype env).2.2 = []
    ∨ (proxyNegotiation ptype env).2.2 = [.socksAttempt]
    ∨ (proxyNegotiation ptype env).2.2 = [.httpAttempt]
    ∨ (proxyNegotiation ptype env).2.2 = [.socksAttempt, .httpAttempt] := by
  unfold proxyNegotiation socksPhase httpPhase
  split_ifs <;> simp

lemma proxyTr_events (cfg : Config) (env : ConnectEnv) :
    ∀ e ∈ proxyTr cfg env, isProxyEv e = true := by
  unfold proxyTr
  cases cfg.ssh.proxy.hostname with
  | none => simp
  | some x =>
    rcases proxyNeg_tr_shape (proxyType cfg) env with h | h | h | h <;>
      rw [h] <;> intro e he <;> simp at he
    · subst he; rfl
    · subst he; rfl
    · rcases he with he | he <;> subst he <;> rfl

lemma isProxy_not_ssh (e : Event) (h : isProxyEv e = true) : isSshEv e = false := by
  cases e <;> simp [isProxyEv, isSshEv] at h ⊢

lemma isProxy_not_sleep (e : Event) (h : isProxyEv e = true) : isSleepEv e = false := by
  cases e <;> simp [isProxyEv, isSleepEv] at h ⊢

lemma proxyTr_count_ssh (cfg : Config) (env : ConnectEnv) :
    (proxyTr cfg env).countP isSshEv = 0 := by
  rw [List.countP_eq_zero]
  intro e he
  simp [isProxy_not_ssh e (proxyTr_events cfg env e he)]

lemma proxyTr_count_sleep (cfg : Config) (env : ConnectEnv) :
    (proxyTr cfg env).countP isSleepEv = 0 := by
  rw [List.countP_eq_zero]
  intro e he
  simp [isProxy_not_sleep e (proxyTr_events cfg env e he)]

/-! ## Claim C1: auto proxy fallback -/

/-- Config with `proxyMode = auto` (type omitted, defaulting to `auto`) and a
proxy host configured. -/
def cfgC1 : Config :=
  { ssh := { hostname := "server.example.com", port := 22, username := "deploy",
             key_file := none, password := some "pw",
             proxy := { hostname := some "proxy.example.com", port := 1080,
                        type := none, username := none, password := none } },
    deploy := { compression := true, compression_format := "tar.gz", retry_attempts := 1,
                retry_delay := 5, delete_before_sync := false, checksum_verify := true,
                chunk_size := 4096 },
    paths := { localPath := none, remotePath := none } }

/-- Environment in which PySocks imports but the SOCKS5 socket connect fails,
while the HTTP proxy is healthy (it would answer
`200 Connection established`) and the host accepts a direct connection. -/
def envC1 : ConnectEnv :=
  { socksImportOk := true, socksConnectOk := false, httpExc := false,
    httpResponse := "HTTP/1.1 200 Connection established",
    sshConnect := fun _ _ => true }

/-- **C1** (code bug evidence): with `proxyMode = auto` and a failed SOCKS5
attempt, `connect_ssh` never issues an HTTP CONNECT attempt — the raise
inside the SOCKS5 branch leaves the `try` block that also contains the HTTP
CONNECT code — and goes straight to a direct (`sock = none`) connection,
even though the HTTP proxy would have answered success.  This contradicts
the claimed (and internally logged) SOCKS5 → HTTP CONNECT → direct
fallback chain. -/
theorem claim_C1_auto_mode_skips_http_connect :
    connect_ssh cfgC1 envC1 = (true, [.socksAttempt, .sshAttempt none 0])
    ∧ Event.httpAttempt ∉ (connect_ssh cfgC1 envC1).2
    ∧ httpRespOk envC1.httpResponse = true := by
  refine ⟨by decide, by decide, by decide⟩

/-! ## Claim C4: connection retry exhaustion -/

/-- **C4**: when the remote host never accepts the handshake (and proxy
negotiation did not already abort `connect_ssh` in an explicit mode),
`connect_ssh` reports failure after performing exactly `retry_attempts`
handshake attempts with one `retry_delay` pause between consecutive attempts
and none after the last — the retry part of the trace is exactly
`failTrace`, which interleaves attempts and pauses in that pattern. -/
theorem claim_C4_connect_retry_exhaustion (cfg : Config) (env : ConnectEnv)
    (hfail : ∀ s i, env.sshConnect s i = false)
    (hp : proxyFatal cfg env = false) :
    (connect_ssh cfg env).1 = false
    ∧ (connect_ssh cfg env).2.countP isSshEv = cfg.deploy.retry_attempts
    ∧ (connect_ssh cfg env).2.countP isSleepEv = cfg.deploy.retry_attempts - 1
    ∧ (connect_ssh cfg env).2 =
        proxyTr cfg env
          ++ failTrace (proxySock cfg env) cfg.deploy.retry_delay 0 cfg.deploy.retry_attempts := by
  have hd := connect_ssh_decomp cfg env hp
  have hr := retryAux_fail env (proxySock cfg env) cfg.deploy.retry_delay
    (fun i => hfail _ i) cfg.deploy.retry_attempts 0
  rw [hd]
  unfold retryLoop
  rw [hr]
  refine ⟨rfl, ?_, ?_, rfl⟩
  · simp [List.countP_append, proxyTr_count_ssh, failTrace_count_ssh]
  · simp [List.countP_append, proxyTr_count_sleep, failTrace_count_sleep]

/-- Config with no proxy, 3 retry attempts, 7-second delay. -/
def cfgC4 : Config :=
  { ssh := { hostname := "server.example.com", port := 22, username := "deploy",
             key_file := none, password := some "pw",
             proxy := { hostname := none, port := 0, type := none,
                        username := none, password := none } },
    deploy := { compression := false, compression_format := "tar.gz", retry_attempts := 3,
                retry_delay := 7, delete_before_sync := false, checksum_verify := false,
                chunk_size := 4096 },
    paths := { localPath := none, remotePath := none } }

/-- Environment whose host never accepts a connection. -/
def envC4 : ConnectEnv :=
  { socksImportOk := true, socksConnectOk := true, httpExc := false,
    httpResponse := "", sshConnect := fun _ _ => false }

/-- Witness for C4 at a concrete unreachable-host configuration. -/
theorem claim_C4_witness :
    (connect_ssh cfgC4 envC4).1 = false
    ∧ (connect_ssh cfgC4 envC4).2.countP isSshEv = 3
    ∧ (connect_ssh cfgC4 envC4).2.countP isSleepEv = 2
    ∧ (connect_ssh cfgC4 envC4).2 = proxyTr cfgC4 envC4 ++ failTrace (proxySock cfgC4 envC4) 7 0 3 :=
  claim_C4_connect_retry_exhaustion cfgC4 envC4 (fun _ _ => rfl) (by decide)

/-! ## Claim C5: is proxy negotiation re-executed on every retry? -/

/-- Config with an explicit `socks5` proxy and 3 retry attempts. -/
def cfgC5 : Config :=
  { ssh := { hostname := "server.example.com", port := 22, username := "deploy",
             key_file := none, password := some "pw",
             proxy := { hostname := some "proxy.example.com", port := 1080,
                        type := some "socks5", username := none, password := none } },
    deploy := { compression := false, compression_format := "tar.gz", retry_attempts := 3,
                retry_delay := 2, delete_before_sync := false, checksum_verify := false,
                chunk_size := 4096 },
    paths := { localPath := none, remotePath := none } }

/-- SOCKS5 negotiation succeeds, but every handshake fails. -/
def envC5 : ConnectEnv :=
  { socksImportOk := true, socksConnectOk := true, httpExc := false,
    httpResponse := "", sshConnect := fun _ _ => false }

/-- **C5** (counterexample): with a proxy configured and 3 handshake
attempts, the trace contains a single proxy-negotiation event, not one per
retry iteration — the retry loop does not re-execute proxy negotiation. -/
theorem claim_C5_counterexample :
    (connect_ssh cfgC5 envC5).2.countP isProxyEv = 1
    ∧ (connect_ssh cfgC5 envC5).2.countP isSshEv = 3 := by
  refine ⟨by decide, by decide⟩

/-- `cfg` with the retry settings replaced. -/
def setRetry (cfg : Config) (n d : Nat) : Config :=
  { cfg with deploy := { cfg.deploy with retry_attempts := n, retry_delay := d } }

/-- **C5** (amended): proxy negotiation runs once, before the retry loop:
every `connect_ssh` trace is the proxy-negotiation trace followed by a
retry part free of proxy events, the proxy part contains no handshake
events, and the proxy part does not depend on the retry settings. -/
theorem claim_C5_proxy_negotiation_once (cfg : Config) (env : ConnectEnv) :
    (∃ rtr, (connect_ssh cfg env).2 = proxyTr cfg env ++ rtr
        ∧ rtr.countP isProxyEv = 0)
    ∧ (proxyTr cfg env).countP isSshEv = 0
    ∧ (∀ n d, proxyTr (setRetry cfg n d) env = proxyTr cfg env) := by
  refine ⟨?_, proxyTr_count_ssh cfg env, fun n d => rfl⟩
  cases hf : proxyFatal cfg env with
  | true =>
    refine ⟨[], ?_, rfl⟩
    rw [connect_ssh_fatal cfg env hf]
    simp
  | false =>
    refine ⟨(retryLoop env (proxySock cfg env) cfg.deploy.retry_attempts cfg.deploy.retry_delay).2,
      ?_, ?_⟩
    · rw [connect_ssh_decomp cfg env hf]
    · rw [List.countP_eq_zero]
      intro e he
      simp [retryAux_events env (proxySock cfg env) cfg.deploy.retry_delay
        cfg.deploy.retry_attempts 0 e he]

/-! ## Deploy-phase helper lemmas -/

/-- Is this an event of the connection phase? -/
def isConnEv : Event → Bool
  | .socksAttempt => true
  | .httpAttempt => true
  | .sshAttempt _ _ => true
  | .sleepEv _ => true
  | _ => false

lemma retryAux_events_conn (env : ConnectEnv) (sock : Option SockKind) (delay : Nat) :
    ∀ rem att e, e ∈ (retryAux env sock delay att rem).2 → isConnEv e = true := by
  intro rem
  induction rem with
  | zero => intro att e he; simp [retryAux] at he
  | succ r ih =>
    intro att e he
    cases r with
    | zero =>
      cases hcon : env.sshConnect sock att with
      | true => simp [retryAux, hcon] at he; subst he; rfl
      | false => simp [retryAux, hcon] at he; subst he; rfl
    | succ r' =>
      cases hcon : env.sshConnect sock att with
      | true => simp [retryAux, hcon] at he; subst he; rfl
      | false =>
        simp [retryAux, hcon] at he
        rcases he with he | he | he
        · subst he; rfl
        · subst he; rfl
        · exact ih (att + 1) e he

lemma isProxy_conn (e : Event) (h : isProxyEv e = true) : isConnEv e = true := by
  cases e <;> simp [isProxyEv, isConnEv] at h ⊢

lemma connect_trace_events (cfg : Config) (cenv : ConnectEnv) :
    ∀ e ∈ (connect_ssh cfg cenv).2, isConnEv e = true := by
  intro e he
  cases hf : proxyFatal cfg cenv with
  | true =>
    rw [connect_ssh_fatal cfg cenv hf] at he
    exact isProxy_conn e (proxyTr_events cfg cenv e he)
  | false =>
    rw [connect_ssh_decomp cfg cenv hf] at he
    simp only [List.mem_append] at he
    rcases he with he | he
    · exact isProxy_conn e (proxyTr_events cfg cenv e he)
    · exact retryAux_events_conn cenv (proxySock cfg cenv) cfg.deploy.retry_delay
        cfg.deploy.retry_attempts 0 e he

lemma isConn_not_write (e : Event) (h : isConnEv e = true) : isRemoteWrite e = false := by
  cases e <;> simp [isConnEv, isRemoteWrite] at h ⊢

lemma isConn_ne_decompress (e : Event) (rp : String) (h : isConnEv e = true) :
    e ≠ .decompressCmd rp := by
  cases e <;> simp [isConnEv] at h ⊢

lemma delete_trace_events (p : String) (denv : DeleteEnv) :
    ∀ e ∈ (delete_remote_folder p denv).2, e = .deleteCheck p ∨ e = .deleteRm p := by
  intro e he
  unfold delete_remote_folder at he
  cases hT : denv.testExec with
  | error u => rw [hT] at he; simp at he; exact Or.inl he
  | ok st =>
    rw [hT] at he
    by_cases hst : st = 0
    · simp only [hst, if_pos] at he
      cases hR : denv.rmExec with
      | error u => rw [hR] at he; simp at he; exact he
      | ok st2 => rw [hR] at he; simp at he; exact he
    · simp [hst] at he; exact Or.inl he

lemma deploy_reach (cfg : Config) (env : DeployEnv) (lpArg rpArg : Option String)
    (fd : Option Bool) (a b : String)
    (ha : resolveLocal lpArg cfg = some a) (hb : resolveRemote rpArg cfg = some b)
    (hex : env.pathExists (env.expanduser a) = true)
    (hc : (connect_ssh cfg env.cenv).1 = true) :
    deploy cfg env lpArg rpArg fd =
      deployPostConnect cfg env (env.expanduser a) b fd
        (.startDeploy (env.expanduser a) b :: (connect_ssh cfg env.cenv).2) := by
  unfold deploy
  rw [ha, hb]
  simp [hex, hc]

lemma deployPostConnect_pass (cfg : Config) (env : DeployEnv) (lp rp : String)
    (fd : Option Bool) (tr : List Event)
    (hd : effDelete fd cfg = true → (delete_remote_folder rp env.delEnv).1 = true) :
    deployPostConnect cfg env lp rp fd tr =
      deployMkdirPhase cfg env lp rp
        (tr ++ (if effDelete fd cfg then (delete_remote_folder rp env.delEnv).2 else [])) := by
  unfold deployPostConnect
  cases hdel : effDelete fd cfg with
  | false => simp
  | true => simp [hd hdel]

lemma deployMkdirPhase_tr (cfg : Config) (env : DeployEnv) (lp rp : String)
    (tr : List Event) :
    ∃ s, (deployMkdirPhase cfg env lp rp tr).2 = tr ++ s := by
  unfold deployMkdirPhase
  cases env.mkdirRaises <;> simp

lemma deployPostConnect_tr (cfg : Config) (env : DeployEnv) (lp rp : String)
    (fd : Option Bool) (tr : List Event) :
    ∃ s, (deployPostConnect cfg env lp rp fd tr).2 = tr ++ s := by
  unfold deployPostConnect
  cases effDelete fd cfg with
  | false => exact deployMkdirPhase_tr cfg env lp rp tr
  | true =>
    simp only [if_true]
    cases (delete_remote_folder rp env.delEnv).1 with
    | false => exact ⟨(delete_remote_folder rp env.delEnv).2, by simp⟩
    | true =>
      simp only [if_true]
      obtain ⟨s, hs⟩ := deployMkdirPhase_tr cfg env lp rp
        (tr ++ (delete_remote_folder rp env.delEnv).2)
      exact ⟨(delete_remote_folder rp env.delEnv).2 ++ s, by simp [hs]⟩

lemma prefix_no_writes (cfg : Config) (cenv : ConnectEnv) (lp b : String)
    (denv : DeleteEnv) :
    (Event.startDeploy lp b :: (connect_ssh cfg cenv).2
       ++ (delete_remote_folder b denv).2).countP isRemoteWrite = 0 := by
  rw [List.countP_eq_zero]
  intro e he
  simp only [List.cons_append, List.mem_cons, List.mem_append] at he
  rcases he with rfl | he | he
  · simp [isRemoteWrite]
  · simp [isConn_not_write e (connect_trace_events cfg cenv e he)]
  · rcases delete_trace_events b denv e he with rfl | rfl <;> simp [isRemoteWrite]

/-! ## Claim C2: disconnect on every exit path -/

/-- Config with no proxy, compression enabled, one retry. -/
def cfgND : Config :=
  { ssh := { hostname := "server.example.com", port := 22, username := "deploy",
             key_file := none, password := some "pw",
             proxy := { hostname := none, port := 0, type := none,
                        username := none, password := none } },
    deploy := { compression := true, compression_format := "tar.gz", retry_attempts := 1,
                retry_delay := 0, delete_before_sync := false, checksum_verify := true,
                chunk_size := 4096 },
    paths := { localPath := none, remotePath := none } }

/-- A connection environment whose handshake always succeeds. -/
def cenvOk : ConnectEnv :=
  { socksImportOk := true, socksConnectOk := true, httpExc := false,
    httpResponse := "", sshConnect := fun _ _ => true }

/-- Deploy environment in which the remote folder exists and `rm -rf`
returns a non-zero exit status (delete-before-sync fails). -/
def envC2 : DeployEnv :=
  { expanduser := fun s => s, pathExists := fun _ => true, isDir := fun _ => true,
    cenv := cenvOk,
    delEnv := { testExec := .ok 0, rmExec := .ok 1 },
    mkdirRaises := false, compressExc := false, uploadExc := false,
    venv := { localHash := .ok "d", remoteExec := .ok ⟨0, "d  f.tar.gz", ""⟩ },
    dcExec := .ok 0 }

/-- **C2** (counterexample): a deploy whose connection was established (the
trace shows the successful handshake and post-connect activity) and whose
delete-before-sync step fails returns `False` without ever running
`disconnect_ssh` — the `return False` at line 429 sits before the
`try/finally` that guarantees cleanup. -/
theorem claim_C2_counterexample :
    (deploy cfgND envC2 (some "/src") (some "/dst") (some true)).1 = false
    ∧ Event.sshAttempt none 0 ∈ (deploy cfgND envC2 (some "/src") (some "/dst") (some true)).2
    ∧ Event.deleteRm "/dst" ∈ (deploy cfgND envC2 (some "/src") (some "/dst") (some true)).2
    ∧ Event.disconnectEv ∉ (deploy cfgND envC2 (some "/src") (some "/dst") (some true)).2 := by
  refine ⟨by decide, by decide, by decide, by decide⟩

/-- **C2** (amended): on every deploy that reaches the remote-directory
creation step without the `mkdir` command raising — that is, paths resolve,
the local path exists, the connection is established, and the
delete-before-sync phase (when enabled) succeeds — `disconnect_ssh` runs,
whatever the transfer phase then does (success, handled failure such as a
checksum mismatch or decompression failure, or unexpected failure).  On a
delete-before-sync failure, and when the `mkdir` command raises, `deploy`
returns `False` without disconnecting. -/
theorem claim_C2_disconnect_on_transfer_paths (cfg : Config) (env : DeployEnv)
    (lpArg rpArg : Option String) (fd : Option Bool) (a b : String)
    (ha : resolveLocal lpArg cfg = some a) (hb : resolveRemote rpArg cfg = some b)
    (hex : env.pathExists (env.expanduser a) = true)
    (hc : (connect_ssh cfg env.cenv).1 = true)
    (hd : effDelete fd cfg = true → (delete_remote_folder b env.delEnv).1 = true)
    (hm : env.mkdirRaises = false) :
    Event.disconnectEv ∈ (deploy cfg env lpArg rpArg fd).2 := by
  rw [deploy_reach cfg env lpArg rpArg fd a b ha hb hex hc,
    deployPostConnect_pass cfg env _ b fd _ hd]
  simp [deployMkdirPhase, hm]

/-- `envC2` with a delete phase that succeeds (folder absent). -/
def envC2w : DeployEnv :=
  { envC2 with delEnv := { testExec := .ok 1, rmExec := .ok 0 } }

/-- Witness for the amended C2 at a concrete deploy that reaches the
transfer phase. -/
theorem claim_C2_witness :
    Event.disconnectEv ∈ (deploy cfgND envC2w (some "/src") (some "/dst") (some true)).2 :=
  claim_C2_disconnect_on_transfer_paths cfgND envC2w (some "/src") (some "/dst") (some true)
    "/src" "/dst" (by decide) (by decide) rfl (by decide) (fun _ => by decide) rfl

/-! ## Claim C8: delete-before-sync precedes all remote writes -/

/-- **C8**: with delete-before-sync effectively enabled on a deploy that
connects, a failed deletion makes `deploy` return `False` with a trace
containing no remote-write event at all (no `mkdir -p`, no upload, no copy,
no decompression); a successful deletion (or confirmed absence) places the
whole deletion phase before every remote-write event, as the trace
decomposes into the write-free prefix ending with the delete phase followed
by the rest. -/
theorem claim_C8_delete_precedes_writes (cfg : Config) (env : DeployEnv)
    (lpArg rpArg : Option String) (fd : Option Bool) (a b : String)
    (ha : resolveLocal lpArg cfg = some a) (hb : resolveRemote rpArg cfg = some b)
    (hex : env.pathExists (env.expanduser a) = true)
    (hc : (connect_ssh cfg env.cenv).1 = true)
    (hdel : effDelete fd cfg = true) :
    ((delete_remote_folder b env.delEnv).1 = false →
      deploy cfg env lpArg rpArg fd =
        (false, .startDeploy (env.expanduser a) b :: (connect_ssh cfg env.cenv).2
                  ++ (delete_remote_folder b env.delEnv).2)
      ∧ (deploy cfg env lpArg rpArg fd).2.countP isRemoteWrite = 0)
    ∧ ((delete_remote_folder b env.delEnv).1 = true →
      ∃ post, (deploy cfg env lpArg rpArg fd).2 =
          (.startDeploy (env.expanduser a) b :: (connect_ssh cfg env.cenv).2
             ++ (delete_remote_folder b env.delEnv).2) ++ post
        ∧ (.startDeploy (env.expanduser a) b :: (connect_ssh cfg env.cenv).2
             ++ (delete_remote_folder b env.delEnv).2).countP isRemoteWrite = 0) := by
  constructor
  · intro hfailD
    have htr : deploy cfg env lpArg rpArg fd =
        (false, .startDeploy (env.expanduser a) b :: (connect_ssh cfg env.cenv).2
                  ++ (delete_remote_folder b env.delEnv).2) := by
      rw [deploy_reach cfg env lpArg rpArg fd a b ha hb hex hc]
      unfold deployPostConnect
      rw [hdel, if_pos rfl, hfailD]
      simp
    refine ⟨htr, ?_⟩
    rw [htr]
    exact prefix_no_writes cfg env.cenv (env.expanduser a) b env.delEnv
  · intro hokD
    obtain ⟨s, hs⟩ := deployMkdirPhase_tr cfg env (env.expanduser a) b
      ((.startDeploy (env.expanduser a) b :: (connect_ssh cfg env.cenv).2)
        ++ (delete_remote_folder b env.delEnv).2)
    refine ⟨s, ?_, prefix_no_writes cfg env.cenv (env.expanduser a) b env.delEnv⟩
    rw [deploy_reach cfg env lpArg rpArg fd a b ha hb hex hc]
    unfold deployPostConnect
    rw [hdel, if_pos rfl, hokD, if_pos rfl]
    simpa using hs

/-- Witness for C8: delete-enabled deploy against an existing folder whose
removal fails (first conjunct) — the same theorem also instantiates the
success conjunct at `envC2w`. -/
theorem claim_C8_witness :
    (deploy cfgND envC2 (some "/src") (some "/dst") (some true)).2.countP isRemoteWrite = 0
    ∧ ∃ post, (deploy cfgND envC2w (some "/src") (some "/dst") (some true)).2 =
        (.startDeploy "/src" "/dst" :: (connect_ssh cfgND envC2w.cenv).2
           ++ (delete_remote_folder "/dst" envC2w.delEnv).2) ++ post :=
  ⟨((claim_C8_delete_precedes_writes cfgND envC2 (some "/src") (some "/dst") (some true)
      "/src" "/dst" (by decide) (by decide) rfl (by decide) (by decide)).1 (by decide)).2,
   by
    obtain ⟨post, hpost, -⟩ :=
      (claim_C8_delete_precedes_writes cfgND envC2w (some "/src") (some "/dst") (some true)
        "/src" "/dst" (by decide) (by decide) rfl (by decide) (by decide)).2 (by decide)
    exact ⟨post, hpost⟩⟩

/-! ## Claim C9: path resolution -/

/-- **C9**: a deploy with no (truthy) local path from either the argument or
the configuration — or no remote path — returns `False` with an empty
trace: no connection attempt, no remote activity.  When an explicit
non-empty argument is given, the deployment starts with exactly that
argument's (home-expanded) path, whatever the configured defaults are. -/
theorem claim_C9_path_resolution (cfg : Config) (env : DeployEnv)
    (lpArg rpArg : Option String) (fd : Option Bool) :
    (pyStr lpArg = none → pyStr cfg.paths.localPath = none →
      deploy cfg env lpArg rpArg fd = (false, []))
    ∧ (pyStr rpArg = none → pyStr cfg.paths.remotePath = none →
      deploy cfg env lpArg rpArg fd = (false, []))
    ∧ (∀ a b, lpArg = some a → a ≠ "" → rpArg = some b → b ≠ "" →
      ∃ rest, (deploy cfg env lpArg rpArg fd).2
        = .startDeploy (env.expanduser a) b :: rest) := by
  refine ⟨?_, ?_, ?_⟩
  · intro h1 h2
    unfold deploy resolveLocal
    rw [h1, h2]
  · intro h1 h2
    cases hL : resolveLocal lpArg cfg with
    | none => unfold deploy; rw [hL]
    | some a =>
      unfold deploy resolveRemote
      rw [hL, h1, h2]
  · intro a b hae hne hbe hnb
    subst hae; subst hbe
    have hL : resolveLocal (some a) cfg = some a := by
      simp [resolveLocal, pyStr, hne]
    have hR : resolveRemote (some b) cfg = some b := by
      simp [resolveRemote, pyStr, hnb]
    unfold deploy
    rw [hL, hR]
    cases hex : env.pathExists (env.expanduser a) with
    | false => exact ⟨[], by simp [hex]⟩
    | true =>
      cases hc : (connect_ssh cfg env.cenv).1 with
      | false => exact ⟨(connect_ssh cfg env.cenv).2, by simp [hex, hc]⟩
      | true =>
        obtain ⟨s1, hs1⟩ := deployPostConnect_tr cfg env (env.expanduser a) b fd
          (.startDeploy (env.expanduser a) b :: (connect_ssh cfg env.cenv).2)
        exact ⟨(connect_ssh cfg env.cenv).2 ++ s1, by simp [hex, hc, hs1]⟩

/-- `cfgND` with configured default paths, to show explicit arguments win. -/
def cfgC9 : Config :=
  { cfgND with paths := { localPath := some "/cfglocal", remotePath := some "/cfgremote" } }

/-- Witness for C9: no paths anywhere (first two conjuncts) and explicit
arguments overriding configured defaults (third conjunct). -/
theorem claim_C9_witness :
    deploy cfgND envC2 none none none = (false, [])
    ∧ deploy cfgND envC2 (some "/src") none none = (false, [])
    ∧ ∃ rest, (deploy cfgC9 envC2 (some "/arg") (some "/argr") none).2
        = .startDeploy "/arg" "/argr" :: rest :=
  ⟨(claim_C9_path_resolution cfgND envC2 none none none).1 rfl rfl,
   (claim_C9_path_resolution cfgND envC2 (some "/src") none none).2.1 rfl rfl,
   (claim_C9_path_resolution cfgC9 envC2 (some "/arg") (some "/argr") none).2.2
     "/arg" "/argr" rfl (by decide) rfl (by decide)⟩

/-! ## Checksum-verification helper lemmas -/

lemma verify_mismatch (venv : VerifyEnv) (l : String) (r : RemoteResult) (rc : String)
    (hl : venv.localHash = .ok l) (hr : venv.remoteExec = .ok r)
    (hst : r.exitStatus = 0) (htok : firstToken r.stdout = some rc) (hne : l ≠ rc) :
    verify_remote_checksum venv = false := by
  unfold verify_remote_checksum
  rw [hl, hr]
  simp [hst, htok, hne]

lemma verify_unavailable (venv : VerifyEnv) (r : RemoteResult)
    (hr : venv.remoteExec = .ok r) (hst : r.exitStatus ≠ 0) :
    verify_remote_checksum venv = true := by
  unfold verify_remote_checksum
  cases hL : venv.localHash with
  | error u => rfl
  | ok l => rw [hr]; simp [hst]

lemma verify_remote_raise (venv : VerifyEnv) (hr : venv.remoteExec = .error ()) :
    verify_remote_checksum venv = true := by
  unfold verify_remote_checksum
  cases hL : venv.localHash with
  | error u => rfl
  | ok l => rw [hr]

lemma verify_local_raise (venv : VerifyEnv) (hl : venv.localHash = .error ()) :
    verify_remote_checksum venv = true := by
  unfold verify_remote_checksum
  rw [hl]

lemma verify_no_token (venv : VerifyEnv) (r : RemoteResult)
    (hr : venv.remoteExec = .ok r) (hst : r.exitStatus = 0)
    (htok : firstToken r.stdout = none) :
    verify_remote_checksum venv = true := by
  unfold verify_remote_checksum
  cases hL : venv.localHash with
  | error u => rfl
  | ok l => rw [hr]; simp [hst, htok]

/-! ## Deploy-body helper lemmas -/

lemma deployBody_checksum_mismatch (cfg : Config) (env : DeployEnv) (lp rp : String)
    (hcomp : cfg.deploy.compression = true)
    (hfmt : cfg.deploy.compression_format = "tar.gz" ∨ cfg.deploy.compression_format = "zip")
    (hce : env.compressExc = false) (hue : env.uploadExc = false)
    (hcv : cfg.deploy.checksum_verify = true)
    (hv : verify_remote_checksum env.venv = false) :
    deployBody cfg env lp rp = (false, [.compressEv lp, .uploadEv, .verifyEv]) := by
  rcases hfmt with h | h <;> simp [deployBody, hcomp, h, hce, hue, hcv, hv]

lemma deployBody_checksum_pass (cfg : Config) (env : DeployEnv) (lp rp : String)
    (hcomp : cfg.deploy.compression = true)
    (hfmt : cfg.deploy.compression_format = "tar.gz" ∨ cfg.deploy.compression_format = "zip")
    (hce : env.compressExc = false) (hue : env.uploadExc = false)
    (hcv : cfg.deploy.checksum_verify = true)
    (hv : verify_remote_checksum env.venv = true) :
    deployBody cfg env lp rp =
      ((decompress_remote cfg.deploy.compression_format rp env.dcExec).1,
       .compressEv lp :: .uploadEv :: .verifyEv ::
         (decompress_remote cfg.deploy.compression_format rp env.dcExec).2) := by
  rcases hfmt with h | h <;> simp [deployBody, hcomp, h, hce, hue, hcv, hv]

lemma decompress_mem (fmt rp : String) (ex : Except Unit Nat)
    (hfmt : fmt = "tar.gz" ∨ fmt = "zip") :
    Event.decompressCmd rp ∈ (decompress_remote fmt rp ex).2 := by
  rcases hfmt with h | h <;> subst h <;>
    (unfold decompress_remote
     cases ex with
     | error u => simp
     | ok st => by_cases hst : st = 0 <;> simp [hst])

lemma deleteOpt_events (cond : Prop) [Decidable cond] (b : String) (denv : DeleteEnv) :
    ∀ e ∈ (if cond then (delete_remote_folder b denv).2 else []),
      e = .deleteCheck b ∨ e = .deleteRm b := by
  split
  · exact delete_trace_events b denv
  · simp

lemma deploy_full_trace (cfg : Config) (env : DeployEnv) (lpArg rpArg : Option String)
    (fd : Option Bool) (a b : String)
    (ha : resolveLocal lpArg cfg = some a) (hb : resolveRemote rpArg cfg = some b)
    (hex : env.pathExists (env.expanduser a) = true)
    (hc : (connect_ssh cfg env.cenv).1 = true)
    (hd : effDelete fd cfg = true → (delete_remote_folder b env.delEnv).1 = true)
    (hm : env.mkdirRaises = false) :
    deploy cfg env lpArg rpArg fd =
      ((deployBody cfg env (env.expanduser a) b).1,
       .startDeploy (env.expanduser a) b :: ((connect_ssh cfg env.cenv).2
         ++ ((if effDelete fd cfg then (delete_remote_folder b env.delEnv).2 else [])
         ++ (.mkdirCmd b :: ((deployBody cfg env (env.expanduser a) b).2
               ++ [.disconnectEv]))))) := by
  rw [deploy_reach cfg env lpArg rpArg fd a b ha hb hex hc,
    deployPostConnect_pass cfg env _ b fd _ hd]
  unfold deployMkdirPhase
  rw [hm]
  simp

lemma deployBody_no_checksum (cfg : Config) (env : DeployEnv) (lp rp : String)
    (hcomp : cfg.deploy.compression = true)
    (hfmt : cfg.deploy.compression_format = "tar.gz" ∨ cfg.deploy.compression_format = "zip")
    (hce : env.compressExc = false) (hue : env.uploadExc = false)
    (hcv : cfg.deploy.checksum_verify = false) :
    deployBody cfg env lp rp =
      ((decompress_remote cfg.deploy.compression_format rp env.dcExec).1,
       .compressEv lp :: .uploadEv ::
         (decompress_remote cfg.deploy.compression_format rp env.dcExec).2) := by
  rcases hfmt with h | h <;> simp [deployBody, hcomp, h, hce, hue, hcv]

lemma mkdir_mem_phase (cfg : Config) (env : DeployEnv) (lp rp : String) (tr : List Event) :
    Event.mkdirCmd rp ∈ (deployMkdirPhase cfg env lp rp tr).2 := by
  unfold deployMkdirPhase
  cases env.mkdirRaises <;> simp

/-! ## Claim C3: checksum gate -/

/-- **C3**: on a compressed deploy with checksum verification enabled that
reaches the verification step, (i) if the local digest and a remote digest
are both obtained and differ, verification returns `false`, the deployment
returns `false` overall, and no remote decompression is attempted; (ii) if
the remote checksum command returns a non-zero exit status, verification
returns `true` and the deployment proceeds to decompression; (iii) likewise
if the remote checksum command fails to execute at all. -/
theorem claim_C3_checksum_gate (cfg : Config) (env : DeployEnv)
    (lpArg rpArg : Option String) (fd : Option Bool) (a b : String)
    (ha : resolveLocal lpArg cfg = some a) (hb : resolveRemote rpArg cfg = some b)
    (hex : env.pathExists (env.expanduser a) = true)
    (hc : (connect_ssh cfg env.cenv).1 = true)
    (hd : effDelete fd cfg = true → (delete_remote_folder b env.delEnv).1 = true)
    (hm : env.mkdirRaises = false)
    (hcomp : cfg.deploy.compression = true)
    (hfmt : cfg.deploy.compression_format = "tar.gz" ∨ cfg.deploy.compression_format = "zip")
    (hce : env.compressExc = false) (hue : env.uploadExc = false)
    (hcv : cfg.deploy.checksum_verify = true) :
    (∀ l r rc, env.venv.localHash = .ok l → env.venv.remoteExec = .ok r →
      r.exitStatus = 0 → firstToken r.stdout = some rc → l ≠ rc →
      verify_remote_checksum env.venv = false
      ∧ (deploy cfg env lpArg rpArg fd).1 = false
      ∧ Event.decompressCmd b ∉ (deploy cfg env lpArg rpArg fd).2)
    ∧ (∀ r, env.venv.remoteExec = .ok r → r.exitStatus ≠ 0 →
      verify_remote_checksum env.venv = true
      ∧ Event.decompressCmd b ∈ (deploy cfg env lpArg rpArg fd).2)
    ∧ (env.venv.remoteExec = .error () →
      verify_remote_checksum env.venv = true
      ∧ Event.decompressCmd b ∈ (deploy cfg env lpArg rpArg fd).2) := by
  have hT := deploy_full_trace cfg env lpArg rpArg fd a b ha hb hex hc hd hm
  refine ⟨?_, ?_, ?_⟩
  · intro l r rc hl hr hst htok hne
    have hv := verify_mismatch env.venv l r rc hl hr hst htok hne
    have hbody := deployBody_checksum_mismatch cfg env (env.expanduser a) b
      hcomp hfmt hce hue hcv hv
    rw [hbody] at hT
    refine ⟨hv, by rw [hT], ?_⟩
    rw [hT]
    intro hmem
    simp only [List.cons_append, List.nil_append, List.mem_cons, List.mem_append,
      List.mem_singleton, List.not_mem_nil] at hmem
    rcases hmem with h | h | h | h | h | h | h | h
    · exact absurd h (by simp)
    · exact absurd (connect_trace_events cfg env.cenv _ h) (by simp [isConnEv])
    · rcases deleteOpt_events _ b env.delEnv _ h with h' | h' <;> simp at h'
    · exact absurd h (by simp)
    · exact absurd h (by simp)
    · exact absurd h (by simp)
    · exact absurd h (by simp)
    · exact absurd h (by simp)
  · intro r hr hst
    have hv := verify_unavailable env.venv r hr hst
    have hbody := deployBody_checksum_pass cfg env (env.expanduser a) b
      hcomp hfmt hce hue hcv hv
    rw [hbody] at hT
    refine ⟨hv, ?_⟩
    rw [hT]
    simp [decompress_mem cfg.deploy.compression_format b env.dcExec hfmt]
  · intro hr
    have hv := verify_remote_raise env.venv hr
    have hbody := deployBody_checksum_pass cfg env (env.expanduser a) b
      hcomp hfmt hce hue hcv hv
    rw [hbody] at hT
    refine ⟨hv, ?_⟩
    rw [hT]
    simp [decompress_mem cfg.deploy.compression_format b env.dcExec hfmt]

/-- Deploy environment whose local and remote digests differ. -/
def envC3a : DeployEnv :=
  { envC2w with venv := { localHash := .ok "aaa", remoteExec := .ok ⟨0, "bbb  /dst/src.tar.gz", ""⟩ } }

/-- Deploy environment whose remote checksum command exits non-zero. -/
def envC3b : DeployEnv :=
  { envC2w with venv := { localHash := .ok "aaa", remoteExec := .ok ⟨127, "", "sha256sum: not found"⟩ } }

/-- Witness for C3: a concrete digest mismatch aborts with overall `false`
and no decompression; a concrete non-zero remote status verifies leniently
and the run decompresses. -/
theorem claim_C3_witness :
    (verify_remote_checksum envC3a.venv = false
     ∧ (deploy cfgND envC3a (some "/src") (some "/dst") none).1 = false
     ∧ Event.decompressCmd "/dst" ∉ (deploy cfgND envC3a (some "/src") (some "/dst") none).2)
    ∧ (verify_remote_checksum envC3b.venv = true
     ∧ Event.decompressCmd "/dst" ∈ (deploy cfgND envC3b (some "/src") (some "/dst") none).2) :=
  ⟨(claim_C3_checksum_gate cfgND envC3a (some "/src") (some "/dst") none "/src" "/dst"
      (by decide) (by decide) rfl (by decide) (fun h => absurd h (by decide)) rfl rfl
      (Or.inl rfl) rfl rfl rfl).1
    "aaa" ⟨0, "bbb  /dst/src.tar.gz", ""⟩ "bbb" rfl rfl rfl (by decide) (by decide),
   (claim_C3_checksum_gate cfgND envC3b (some "/src") (some "/dst") none "/src" "/dst"
      (by decide) (by decide) rfl (by decide) (fun h => absurd h (by decide)) rfl rfl
      (Or.inl rfl) rfl rfl rfl).2.1
    ⟨127, "", "sha256sum: not found"⟩ rfl (by decide)⟩

/-! ## Claim C10: any exception during verification is lenient -/

/-- **C10**: every exception path of `verify_remote_checksum` — local
read/hash failure, remote execution failure, and the `IndexError` on empty
checksum output — returns `true`; the fatal `false` outcome arises only from
two actually obtained, unequal digests; and with a local-hash failure the
deployment proceeds to remote decompression as if verified. -/
theorem claim_C10_verify_exception_lenient (venv : VerifyEnv) :
    (venv.localHash = .error () → verify_remote_checksum venv = true)
    ∧ (venv.remoteExec = .error () → verify_remote_checksum venv = true)
    ∧ (∀ r, venv.remoteExec = .ok r → r.exitStatus = 0 → firstToken r.stdout = none →
        verify_remote_checksum venv = true)
    ∧ (verify_remote_checksum venv = false →
        ∃ l r rc, venv.localHash = .ok l ∧ venv.remoteExec = .ok r ∧ r.exitStatus = 0
          ∧ firstToken r.stdout = some rc ∧ l ≠ rc)
    ∧ (∀ (cfg : Config) (env : DeployEnv) (lpArg rpArg : Option String)
          (fd : Option Bool) (a b : String),
        env.venv = venv → venv.localHash = .error () →
        resolveLocal lpArg cfg = some a → resolveRemote rpArg cfg = some b →
        env.pathExists (env.expanduser a) = true →
        (connect_ssh cfg env.cenv).1 = true →
        (effDelete fd cfg = true → (delete_remote_folder b env.delEnv).1 = true) →
        env.mkdirRaises = false → cfg.deploy.compression = true →
        (cfg.deploy.compression_format = "tar.gz" ∨ cfg.deploy.compression_format = "zip") →
        env.compressExc = false → env.uploadExc = false →
        Event.decompressCmd b ∈ (deploy cfg env lpArg rpArg fd).2) := by
  refine ⟨verify_local_raise venv, verify_remote_raise venv, verify_no_token venv, ?_, ?_⟩
  · intro hv
    cases hL : venv.localHash with
    | error u => cases u; rw [verify_local_raise venv hL] at hv; cases hv
    | ok l =>
      cases hR : venv.remoteExec with
      | error u => cases u; rw [verify_remote_raise venv hR] at hv; cases hv
      | ok r =>
        by_cases hst : r.exitStatus = 0
        · cases hTok : firstToken r.stdout with
          | none => rw [verify_no_token venv r hR hst hTok] at hv; cases hv
          | some rc =>
            refine ⟨l, r, rc, rfl, rfl, hst, hTok, ?_⟩
            intro heq
            have hTr : verify_remote_checksum venv = true := by
              unfold verify_remote_checksum
              rw [hL, hR]
              simp [hst, hTok, heq]
            rw [hTr] at hv; cases hv
        · rw [verify_unavailable venv r hR hst] at hv; cases hv
  · intro cfg env lpArg rpArg fd a b hveq hl ha hb hex hc hd hm hcomp hfmt hce hue
    have hT := deploy_full_trace cfg env lpArg rpArg fd a b ha hb hex hc hd hm
    have hv : verify_remote_checksum env.venv = true := by
      rw [hveq]; exact verify_local_raise venv hl
    cases hcv : cfg.deploy.checksum_verify with
    | true =>
      have hbody := deployBody_checksum_pass cfg env (env.expanduser a) b
        hcomp hfmt hce hue hcv hv
      rw [hbody] at hT
      rw [hT]
      simp [decompress_mem cfg.deploy.compression_format b env.dcExec hfmt]
    | false =>
      have hbody := deployBody_no_checksum cfg env (env.expanduser a) b
        hcomp hfmt hce hue hcv
      rw [hbody] at hT
      rw [hT]
      simp [decompress_mem cfg.deploy.compression_format b env.dcExec hfmt]

/-- Deploy environment whose local checksum computation raises. -/
def envC10 : DeployEnv :=
  { envC2w with venv := { localHash := .error (), remoteExec := .ok ⟨0, "bbb  f", ""⟩ } }

/-- Witness for C10: a failed local hash verifies leniently (also with a
token-less remote output), and the concrete deployment still decompresses. -/
theorem claim_C10_witness :
    (verify_remote_checksum envC10.venv = true
     ∧ verify_remote_checksum ⟨.ok "aaa", .error ()⟩ = true
     ∧ verify_remote_checksum ⟨.ok "aaa", .ok ⟨0, "   ", ""⟩⟩ = true)
    ∧ Event.decompressCmd "/dst" ∈ (deploy cfgND envC10 (some "/src") (some "/dst") none).2 :=
  ⟨⟨(claim_C10_verify_exception_lenient envC10.venv).1 rfl,
    (claim_C10_verify_exception_lenient ⟨.ok "aaa", .error ()⟩).2.1 rfl,
    (claim_C10_verify_exception_lenient ⟨.ok "aaa", .ok ⟨0, "   ", ""⟩⟩).2.2.1
      ⟨0, "   ", ""⟩ rfl rfl (by decide)⟩,
   (claim_C10_verify_exception_lenient envC10.venv).2.2.2.2 cfgND envC10
     (some "/src") (some "/dst") none "/src" "/dst" rfl rfl (by decide) (by decide) rfl
     (by decide) (fun h => absurd h (by decide)) rfl rfl (Or.inl rfl) rfl rfl⟩

/-! ## Claim C7: delete_remote_folder semantics -/

/-- **C7**: `delete_remote_folder` first tests existence; an absent path is
a no-op success (and a deployment with delete-before-sync enabled then
proceeds to remote directory creation); an existing path is removed
recursively, with success exactly when the removal exit status is zero. -/
theorem claim_C7_delete_folder_semantics (p : String) (denv : DeleteEnv) (st : Nat)
    (hst : denv.testExec = .ok st) :
    (st ≠ 0 → delete_remote_folder p denv = (true, [.deleteCheck p]))
    ∧ (st = 0 → ∀ st2, denv.rmExec = .ok st2 →
        delete_remote_folder p denv =
          ((if st2 = 0 then true else false), [.deleteCheck p, .deleteRm p]))
    ∧ (st ≠ 0 → ∀ (cfg : Config) (env : DeployEnv) (lpArg rpArg : Option String)
          (fd : Option Bool) (a : String),
        env.delEnv = denv →
        resolveLocal lpArg cfg = some a → resolveRemote rpArg cfg = some p →
        env.pathExists (env.expanduser a) = true →
        (connect_ssh cfg env.cenv).1 = true →
        effDelete fd cfg = true →
        Event.mkdirCmd p ∈ (deploy cfg env lpArg rpArg fd).2) := by
  refine ⟨?_, ?_, ?_⟩
  · intro h
    unfold delete_remote_folder
    rw [hst]
    simp [h]
  · intro h st2 hrm
    subst h
    unfold delete_remote_folder
    rw [hst, hrm]
    by_cases h2 : st2 = 0 <;> simp [h2]
  · intro h cfg env lpArg rpArg fd a hde ha hb hex hc hdel
    have hok : (delete_remote_folder p env.delEnv).1 = true := by
      rw [hde]
      unfold delete_remote_folder
      rw [hst]
      simp [h]
    rw [deploy_reach cfg env lpArg rpArg fd a p ha hb hex hc,
      deployPostConnect_pass cfg env _ p fd _ (fun _ => hok)]
    exact mkdir_mem_phase cfg env (env.expanduser a) p _

/-- Delete environment: the remote folder is absent. -/
def denvAbsent : DeleteEnv := { testExec := .ok 1, rmExec := .ok 0 }

/-- Delete environment: the folder exists and `rm -rf` fails. -/
def denvRmFail : DeleteEnv := { testExec := .ok 0, rmExec := .ok 2 }

/-- Witness for C7: an absent folder is a no-op success and the concrete
deployment proceeds to `mkdir -p`; an existing folder whose removal exits
non-zero reports failure. -/
theorem claim_C7_witness :
    delete_remote_folder "/dst" denvAbsent = (true, [.deleteCheck "/dst"])
    ∧ delete_remote_folder "/dst" denvRmFail = (false, [.deleteCheck "/dst", .deleteRm "/dst"])
    ∧ Event.mkdirCmd "/dst" ∈ (deploy cfgND envC2w (some "/src") (some "/dst") (some true)).2 :=
  ⟨(claim_C7_delete_folder_semantics "/dst" denvAbsent 1 rfl).1 (by decide),
   by
    have h := (claim_C7_delete_folder_semantics "/dst" denvRmFail 0 rfl).2.1 rfl 2 rfl
    simpa using h,
   (claim_C7_delete_folder_semantics "/dst" envC2w.delEnv 1 rfl).2.2 (by decide)
     cfgND envC2w (some "/src") (some "/dst") (some true) "/src" rfl (by decide) (by decide)
     rfl (by decide) (by decide)⟩

/-! ## Claim C6: archive member naming -/

lemma tarAddF_shape : ∀ (N : Nat) (ts : List FSTree), sizeOf ts ≤ N →
    ∀ (pfx : Seg) (m : Seg), m ∈ tarAddF pfx ts →
      ∃ c, c ∈ ts ∧ ∃ rest, m = pfx ++ (rootName c :: rest) := by
  intro N
  induction N with
  | zero =>
    intro ts hts pfx m hm
    cases ts with
    | nil => simp [tarAddF] at hm
    | cons t ts' => simp [List.cons.sizeOf_spec] at hts
  | succ n ih =>
    intro ts hts pfx m hm
    cases ts with
    | nil => simp [tarAddF] at hm
    | cons t ts' =>
      have h1 : sizeOf t ≤ n := by simp [List.cons.sizeOf_spec] at hts; omega
      have h2 : sizeOf ts' ≤ n := by simp [List.cons.sizeOf_spec] at hts; omega
      have he : tarAddF pfx (t :: ts') = tarAdd pfx t ++ tarAddF pfx ts' := rfl
      rw [he, List.mem_append] at hm
      rcases hm with hm | hm
      · cases t with
        | file nm =>
          simp [tarAdd] at hm
          exact ⟨.file nm, by simp, [], by simp [hm, rootName]⟩
        | dir nm cs =>
          have hd : tarAdd pfx (.dir nm cs) = (pfx ++ [nm]) :: tarAddF (pfx ++ [nm]) cs := rfl
          rw [hd, List.mem_cons] at hm
          rcases hm with hm | hm
          · exact ⟨.dir nm cs, by simp, [], by simp [hm, rootName]⟩
          · have hcs : sizeOf cs ≤ n := by
              simp [FSTree.dir.sizeOf_spec] at h1; omega
            obtain ⟨c, hc, rest, hrest⟩ := ih cs hcs (pfx ++ [nm]) m hm
            refine ⟨.dir nm cs, by simp, rootName c :: rest, ?_⟩
            rw [hrest]
            simp [rootName]
      · obtain ⟨c, hc, rest, hrest⟩ := ih ts' h2 pfx m hm
        exact ⟨c, by simp [hc], rest, hrest⟩

lemma relFiles_shift : ∀ (N : Nat),
    (∀ t : FSTree, sizeOf t ≤ N →
      ∀ pfx, relFiles pfx t = (relFiles [] t).map (pfx ++ ·))
    ∧ (∀ ts : List FSTree, sizeOf ts ≤ N →
      ∀ pfx, relFilesF pfx ts = (relFilesF [] ts).map (pfx ++ ·)) := by
  intro N
  induction N with
  | zero =>
    constructor
    · intro t ht
      exfalso
      cases t <;> simp [FSTree.file.sizeOf_spec, FSTree.dir.sizeOf_spec] at ht
    · intro ts hts pfx
      cases ts with
      | nil => simp [relFilesF]
      | cons t ts' => simp [List.cons.sizeOf_spec] at hts
  | succ n ih =>
    obtain ⟨ihT, ihF⟩ := ih
    constructor
    · intro t ht pfx
      cases t with
      | file nm => simp [relFiles]
      | dir nm cs =>
        have hcs : sizeOf cs ≤ n := by simp [FSTree.dir.sizeOf_spec] at ht; omega
        have e1 : relFiles pfx (.dir nm cs) = relFilesF (pfx ++ [nm]) cs := rfl
        have e2 : relFiles [] (.dir nm cs) = relFilesF ([] ++ [nm]) cs := rfl
        rw [e1, e2, ihF cs hcs (pfx ++ [nm]), ihF cs hcs ([] ++ [nm])]
        simp [List.map_map, Function.comp, List.append_assoc]
    · intro ts hts pfx
      cases ts with
      | nil => simp [relFilesF]
      | cons t ts' =>
        have h1 : sizeOf t ≤ n := by simp [List.cons.sizeOf_spec] at hts; omega
        have h2 : sizeOf ts' ≤ n := by simp [List.cons.sizeOf_spec] at hts; omega
        have e1 : relFilesF pfx (t :: ts') = relFiles pfx t ++ relFilesF pfx ts' := rfl
        have e2 : relFilesF [] (t :: ts') = relFiles [] t ++ relFilesF [] ts' := rfl
        rw [e1, e2, ihT t h1 pfx, ihF ts' h2 pfx, List.map_append]

lemma perm_swap_append (x y z : List Seg) : List.Perm (x ++ (y ++ z)) (y ++ (x ++ z)) := by
  have h1 : x ++ (y ++ z) = (x ++ y) ++ z := (List.append_assoc x y z).symm
  have h3 : (y ++ x) ++ z = y ++ (x ++ z) := List.append_assoc y x z
  rw [h1, ← h3]
  exact List.Perm.append_right z List.perm_append_comm

lemma walk_perm : ∀ (N : Nat) (cs : List FSTree), sizeOf cs ≤ N → ∀ root,
    List.Perm ((walkD root cs).map (fun p => p.1 ++ [p.2])) (relFilesF root cs) := by
  intro N
  induction N with
  | zero =>
    intro cs hcs root
    cases cs with
    | nil => simp [walkD, levelFiles, walkSubs, relFilesF]
    | cons t ts => simp [List.cons.sizeOf_spec] at hcs
  | succ n ih =>
    intro cs hcs root
    cases cs with
    | nil => simp [walkD, levelFiles, walkSubs, relFilesF]
    | cons t ts =>
      have hts : sizeOf ts ≤ n := by simp [List.cons.sizeOf_spec] at hcs; omega
      cases t with
      | file nm =>
        have e1 : walkD root (.file nm :: ts) = (root, nm) :: walkD root ts := by
          simp [walkD, walkSubs, walkT, levelFiles, List.filterMap_cons]
        have e2 : relFilesF root (.file nm :: ts) = (root ++ [nm]) :: relFilesF root ts := rfl
        rw [e1, e2, List.map_cons]
        exact List.Perm.cons _ (ih ts hts root)
      | dir nm cs' =>
        have hcs' : sizeOf cs' ≤ n := by
          simp [List.cons.sizeOf_spec, FSTree.dir.sizeOf_spec] at hcs
          omega
        have e1 : walkD root (.dir nm cs' :: ts) =
            levelFiles root ts ++ (walkD (root ++ [nm]) cs' ++ walkSubs root ts) := by
          simp [walkD, walkSubs, walkT, levelFiles, List.filterMap_cons, List.append_assoc]
        have e2 : relFilesF root (.dir nm cs' :: ts) =
            relFilesF (root ++ [nm]) cs' ++ relFilesF root ts := rfl
        rw [e1, e2, List.map_append, List.map_append]
        refine (perm_swap_append _ _ _).trans ?_
        refine List.Perm.append (ih cs' hcs' (root ++ [nm])) ?_
        have hac : (levelFiles root ts).map (fun p => p.1 ++ [p.2])
            ++ (walkSubs root ts).map (fun p => p.1 ++ [p.2])
            = (walkD root ts).map (fun p => p.1 ++ [p.2]) := by
          rw [walkD, List.map_append]
        rw [hac]
        exact ih ts hts root

/-- **C6**: every `tar.gz` archive member is named under the base name of an
immediate child of the source directory (the source directory itself never
contributes a path segment — the member list is a function of the children
alone); the `zip` archive members are exactly the paths of the files
relative to the source directory, preserving subdirectory structure; and a
source directory holding only `a.txt` yields the sole member `a.txt`. -/
theorem claim_C6_archive_member_naming :
    (∀ (cs : List FSTree) (m : Seg), m ∈ compressTarMembers cs →
      ∃ c, c ∈ cs ∧ ∃ rest, m = rootName c :: rest)
    ∧ (∀ (src : Seg) (cs : List FSTree),
        List.Perm (zipMembers src cs) (relFilesF [] cs))
    ∧ compressTarMembers [.file "a.txt"] = [["a.txt"]] := by
  refine ⟨?_, ?_, by decide⟩
  · intro cs m hm
    obtain ⟨c, hc, rest, hrest⟩ := tarAddF_shape (sizeOf cs) cs le_rfl [] m hm
    exact ⟨c, hc, rest, by simpa using hrest⟩
  · intro src cs
    have e : zipMembers src cs =
        ((walkD src cs).map (fun p => p.1 ++ [p.2])).map (fun q => q.drop src.length) := by
      unfold zipMembers relpath
      rw [List.map_map]
      rfl
    rw [e]
    refine ((walk_perm (sizeOf cs) cs le_rfl src).map (fun q => q.drop src.length)).trans ?_
    rw [(relFiles_shift (sizeOf cs)).2 cs le_rfl src, List.map_map]
    have heq : (relFilesF [] cs).map ((fun q => q.drop src.length) ∘ (src ++ ·))
        = relFilesF [] cs := by
      have hid : (relFilesF [] cs).map ((fun q => q.drop src.length) ∘ (src ++ ·))
          = (relFilesF [] cs).map id := by
        refine List.map_congr_left ?_
        intro x hx
        simp [List.drop_left]
      rw [hid, List.map_id]
    rw [heq]

/-- Witness for C6: the member `sub/f.txt` of a tar archive is named under
the child `sub`, and a concrete two-entry tree's zip members are a
permutation of its relative file paths. -/
theorem claim_C6_witness :
    (∃ c, c ∈ [FSTree.dir "sub" [.file "f.txt"]]
      ∧ ∃ rest, ["sub", "f.txt"] = rootName c :: rest)
    ∧ List.Perm (zipMembers ["src"] [FSTree.dir "sub" [.file "f.txt"], .file "a"])
        (relFilesF [] [FSTree.dir "sub" [.file "f.txt"], .file "a"]) :=
  ⟨claim_C6_archive_member_naming.1 [.dir "sub" [.file "f.txt"]] ["sub", "f.txt"] (by decide),
   claim_C6_archive_member_naming.2.1 ["src"] [.dir "sub" [.file "f.txt"], .file "a"]⟩

end DeployToolModel
